import Mathlib

/-!
Formal model of the N8 Poker Tool core: the hand-parser finalization logic
of the parse command, the position resolver and numeric helpers of the
utils module, the chart aggregation engine of the chart calculator, and the
duplicate-aware persistence adapter over the sqlite store.

Conventions of the embedding:
* JavaScript numbers are modelled as rationals. All money values in the
  source are parsed from short decimal literals and re-rounded to two
  decimals at every mutation point, so the arithmetic relations verified
  here hold at that level of abstraction.
* The regex layer of the parser extracts numeric captures from log lines;
  functions below take those already-extracted values as arguments and model
  the state mutation the source performs with them.
* The JS remainder operator has the sign of the dividend, which is Int.tmod
  on integers; JS truthiness of a number is "nonzero", of a string is
  "nonempty"; out-of-range array indexing yields undefined, which the
  source turns into a default via the or-else operator.
-/

namespace N8PokerTool

/-- JS Math.round on a rational: nearest integer, ties rounded toward
positive infinity, that is the floor of q + 1/2. -/
def mathRound (q : ℚ) : ℤ := Rat.floor (q + 1/2)

/-- roundToDecimals from the utils module, specialised at its default
argument of 2 decimals (the only precision used on the paths modelled
here): Math.round(num * 100) / 100. -/
def roundToDecimals (num : ℚ) : ℚ := (mathRound (num * 100) : ℚ) / 100

/-- isShowdownResult from the utils module: compares the stored hand-result
string tag against the two showdown tags. -/
def isShowdownResult (handResult : String) : Bool :=
  handResult == "showdown_win" || handResult == "showdown_loss"

/-- calculateRelativePosition from the utils module:
(seatNumber - buttonSeat + totalSeats) % totalSeats with the JS remainder
(sign of the dividend, hence Int.tmod). Call sites pass totalSeats = 6. -/
def calculateRelativePosition (seatNumber buttonSeat totalSeats : ℤ) : ℤ :=
  Int.tmod (seatNumber - buttonSeat + totalSeats) totalSeats

/-- Hand result classification tags (HandResult enum). -/
inductive HandResult where
  | showdownWin
  | showdownLoss
  | noShowdownWin
  | noShowdownLoss
deriving DecidableEq

/-- Final stage reached by a hand (FinalStage enum). -/
inductive FinalStage where
  | preflop
  | flop
  | turn
  | river
  | showdown
deriving DecidableEq

/-- Seat position labels (PokerPosition enum). -/
inductive PokerPosition where
  | UTG
  | HJ
  | CO
  | BTN
  | SB
  | BB
deriving DecidableEq

/-- The current betting section tracked by the parser (HandSection). -/
inductive HandSection where
  | preflop
  | flop
  | turn
  | river
deriving DecidableEq

/-- Per-street ordered action codes of the hero (HeroActions; the codes are
the one-letter strings of ACTION_CODES). -/
structure HeroActions where
  preflop : List String
  flop : List String
  turn : List String
  river : List String
deriving DecidableEq

/-- Per-street money the hero put in (HeroInvestments). -/
structure HeroInvestments where
  preflop : ℚ
  flop : ℚ
  turn : ℚ
  river : ℚ
deriving DecidableEq

/-- Street projection of the investments record, mirroring the dynamic
field access heroInvestments[section] in the source. -/
def HeroInvestments.street (inv : HeroInvestments) : HandSection → ℚ
  | HandSection.preflop => inv.preflop
  | HandSection.flop => inv.flop
  | HandSection.turn => inv.turn
  | HandSection.river => inv.river

/-- Street update of the investments record, mirroring the dynamic field
assignment heroInvestments[section] = v in the source. -/
def HeroInvestments.setStreet (inv : HeroInvestments) (s : HandSection) (v : ℚ) :
    HeroInvestments :=
  match s with
  | HandSection.preflop => { inv with preflop := v }
  | HandSection.flop => { inv with flop := v }
  | HandSection.turn => { inv with turn := v }
  | HandSection.river => { inv with river := v }

/-- The mutable per-hand accumulator the parser threads through one hand's
line scan (PartialParsedHand). Fields the scan always initialises are plain;
fields that may stay undefined are Options. -/
structure PartialParsedHand where
  handId : String
  timestamp : String
  smallBlind : ℚ
  bigBlind : ℚ
  gameType : String
  tableName : Option String
  heroHoleCards : Option String
  heroStartingChips : Option ℚ
  flopCards : String
  turnCard : String
  riverCard : String
  heroRake : ℚ
  potAmount : ℚ
  jackpotAmount : ℚ
  heroProfit : ℚ
  handResult : Option HandResult
  heroActions : HeroActions
  heroInvestments : HeroInvestments
deriving DecidableEq

/-- The finalized immutable hand record (ParsedHand). -/
structure ParsedHand where
  handId : String
  timestamp : String
  tableName : String
  gameType : String
  smallBlind : ℚ
  bigBlind : ℚ
  heroPosition : PokerPosition
  heroHoleCards : String
  flopCards : String
  turnCard : String
  riverCard : String
  heroStartingChips : ℚ
  heroEndingChips : ℚ
  potAmount : ℚ
  jackpotAmount : ℚ
  heroProfit : ℚ
  heroRake : ℚ
  finalStage : FinalStage
  handResult : HandResult
  heroActions : HeroActions
  heroInvestments : HeroInvestments
deriving DecidableEq

/-- State of a fresh hand right after parseHandHeader seeded the header
fields and parseCompleteHand filled in the default initialisers. -/
def initPartialHand (handId timestamp : String) (smallBlind bigBlind : ℚ) :
    PartialParsedHand :=
  { handId := handId
    timestamp := timestamp
    smallBlind := smallBlind
    bigBlind := bigBlind
    gameType := "Rush & Cash"
    tableName := none
    heroHoleCards := none
    heroStartingChips := none
    flopCards := ""
    turnCard := ""
    riverCard := ""
    heroRake := 0
    potAmount := 0
    jackpotAmount := 0
    heroProfit := 0
    handResult := none
    heroActions := ⟨[], [], [], []⟩
    heroInvestments := ⟨0, 0, 0, 0⟩ }

/-- updateInvestment: a call or bet line adds the captured amount to the
current street's investment, re-rounded to two decimals. -/
def updateInvestment (hand : PartialParsedHand) (amount : ℚ) (sec : HandSection) :
    PartialParsedHand :=
  { hand with heroInvestments :=
      (hand.heroInvestments.setStreet sec
        (roundToDecimals (hand.heroInvestments.street sec + amount))) }

/-- updateRaiseInvestment: a raise line sets the current street's investment
to the captured raise-to amount (absolute, not additive). -/
def updateRaiseInvestment (hand : PartialParsedHand) (raiseTo : ℚ) (sec : HandSection) :
    PartialParsedHand :=
  { hand with heroInvestments :=
      (hand.heroInvestments.setStreet sec (roundToDecimals raiseTo)) }

/-- parseUncalledBet: an uncalled-bet-returned-to-Hero line subtracts the
captured returned amount from the current street's investment. -/
def parseUncalledBet (hand : PartialParsedHand) (uncalledAmount : ℚ)
    (sec : HandSection) : PartialParsedHand :=
  { hand with heroInvestments :=
      (hand.heroInvestments.setStreet sec
        (roundToDecimals (hand.heroInvestments.street sec - uncalledAmount))) }

/-- parseHeroResult: on the hero's summary seat line, a won capture (else a
collected capture) overwrites heroProfit with the collected amount, and the
hand result is classified by the presence of the showed marker crossed with
positivity of that amount. -/
def parseHeroResult (hand : PartialParsedHand) (wonAmount collectedAmount : Option ℚ)
    (showed : Bool) : PartialParsedHand :=
  let hand1 :=
    match wonAmount with
    | some a => { hand with heroProfit := a }
    | none =>
      match collectedAmount with
      | some a => { hand with heroProfit := a }
      | none => hand
  let result :=
    if showed then
      if hand1.heroProfit > 0 then HandResult.showdownWin else HandResult.showdownLoss
    else
      if hand1.heroProfit > 0 then HandResult.noShowdownWin else HandResult.noShowdownLoss
  { hand1 with handResult := some result }

/-- determineFinalStage: showdown results dominate; otherwise the last
community card recorded decides the stage (JS string truthiness is
nonemptiness). -/
def determineFinalStage (hand : PartialParsedHand) : FinalStage :=
  if hand.handResult = some HandResult.showdownWin ∨
      hand.handResult = some HandResult.showdownLoss then
    FinalStage.showdown
  else if hand.riverCard ≠ "" then FinalStage.river
  else if hand.turnCard ≠ "" then FinalStage.turn
  else if hand.flopCards ≠ "" then FinalStage.flop
  else FinalStage.preflop

/-- The fixed 6-max rotation table used by determineHeroPosition. -/
def positions : List PokerPosition :=
  [PokerPosition.BTN, PokerPosition.SB, PokerPosition.BB,
   PokerPosition.UTG, PokerPosition.HJ, PokerPosition.CO]

/-- JS falsiness of a nullable seat number: null or zero. -/
def isFalsySeat : Option ℤ → Bool
  | none => true
  | some n => n == 0

/-- determineHeroPosition: BTN fallback when either seat is falsy; otherwise
index the fixed rotation at the relative position. A negative or
out-of-range index reads undefined from the array and the or-else default
yields BTN. -/
def determineHeroPosition (heroSeatNumber buttonSeatNumber : Option ℤ) : PokerPosition :=
  if isFalsySeat heroSeatNumber || isFalsySeat buttonSeatNumber then PokerPosition.BTN
  else
    let relativePosition :=
      calculateRelativePosition (heroSeatNumber.getD 0) (buttonSeatNumber.getD 0) 6
    if relativePosition < 0 then PokerPosition.BTN
    else positions.getD relativePosition.toNat PokerPosition.BTN

/-- finalizeHand: derives total investment, final profit, final stage and
position from the accumulated partial hand, rounding all money fields to
two decimals on the way out. -/
def finalizeHand (hand : PartialParsedHand)
    (heroSeatNumber buttonSeatNumber : Option ℤ) : ParsedHand :=
  let totalInvestment :=
    roundToDecimals (hand.heroInvestments.preflop + hand.heroInvestments.flop +
      hand.heroInvestments.turn + hand.heroInvestments.river)
  let collectedAmount := hand.heroProfit
  let finalProfit :=
    if collectedAmount > 0 then roundToDecimals (collectedAmount - totalInvestment)
    else roundToDecimals (-totalInvestment)
  let finalStage := determineFinalStage hand
  let heroPosition := determineHeroPosition heroSeatNumber buttonSeatNumber
  { handId := hand.handId
    timestamp := hand.timestamp
    tableName := hand.tableName.getD ""
    gameType := hand.gameType
    smallBlind := hand.smallBlind
    bigBlind := hand.bigBlind
    heroPosition := heroPosition
    heroHoleCards := hand.heroHoleCards.getD ""
    flopCards := hand.flopCards
    turnCard := hand.turnCard
    riverCard := hand.riverCard
    heroStartingChips := hand.heroStartingChips.getD 0
    heroEndingChips := hand.heroStartingChips.getD 0 + finalProfit
    potAmount := roundToDecimals hand.potAmount
    jackpotAmount := roundToDecimals hand.jackpotAmount
    heroProfit := finalProfit
    heroRake := roundToDecimals hand.heroRake
    finalStage := finalStage
    handResult := hand.handResult.getD HandResult.noShowdownLoss
    heroActions := hand.heroActions
    heroInvestments :=
      ⟨roundToDecimals hand.heroInvestments.preflop,
       roundToDecimals hand.heroInvestments.flop,
       roundToDecimals hand.heroInvestments.turn,
       roundToDecimals hand.heroInvestments.river⟩ }

/-- A stored hand row as consumed by the chart calculator (the PokerHand
interface of the database layer, restricted to the columns the calculator
reads). -/
structure PokerHand where
  hand_start_time : String
  big_blind : ℚ
  hero_profit : ℚ
  hero_rake : ℚ
  hero_hand_result : String
  final_stage : String
deriving DecidableEq

/-- One emitted time-series point (ChartDataPoint). -/
structure ChartDataPoint where
  handNumber : ℕ
  value : ℚ
  timestamp : String
deriving DecidableEq

/-- The four parallel profit series (ProfitChartData). -/
structure ProfitChartData where
  allHandsWithRake : List ChartDataPoint
  allHandsActual : List ChartDataPoint
  showdownOnly : List ChartDataPoint
  noShowdownOnly : List ChartDataPoint
deriving DecidableEq

/-- The four parallel BB-per-100 series (BB100ChartData). -/
structure BB100ChartData where
  allHandsWithRakeBB100 : List ChartDataPoint
  allHandsActualBB100 : List ChartDataPoint
  showdownOnlyBB100 : List ChartDataPoint
  noShowdownOnlyBB100 : List ChartDataPoint
deriving DecidableEq

/-- Running sums maintained across the scan of the ordered hand sequence. -/
structure CumulativeStats where
  allWithRake : ℚ
  allActual : ℚ
  showdown : ℚ
  noShowdown : ℚ
deriving DecidableEq

/-- Interval accumulator for the profit series. -/
structure IntervalAccumulator where
  allWithRake : ℚ
  allActual : ℚ
  showdown : ℚ
  noShowdown : ℚ
  count : ℕ
deriving DecidableEq

/-- Interval accumulator for the BB-per-100 series. -/
structure BB100Accumulator where
  bb100AllWithRake : ℚ
  bb100AllActual : ℚ
  bb100Showdown : ℚ
  bb100NoShowdown : ℚ
  count : ℕ
deriving DecidableEq

/-- Zero cumulative statistics (the source initialiser for CumulativeStats). -/
def initCumulativeStats : CumulativeStats := ⟨0, 0, 0, 0⟩

/-- Zero profit-interval accumulator (the source initialiser for the
interval accumulator). -/
def initIntervalAccumulator : IntervalAccumulator := ⟨0, 0, 0, 0, 0⟩

/-- Zero BB-per-100 accumulator (the source initialiser for the BB100
accumulator). -/
def initBB100Accumulator : BB100Accumulator := ⟨0, 0, 0, 0, 0⟩

/-- updateCumulativeStats: rake is added back only on winning hands; the
profit additionally lands in exactly one of the showdown and non-showdown
sums according to the stored result tag. -/
def updateCumulativeStats (stats : CumulativeStats) (hand : PokerHand) :
    CumulativeStats :=
  let profit := hand.hero_profit
  let adjustedRake := if profit > 0 then hand.hero_rake else 0
  { allWithRake := stats.allWithRake + (profit + adjustedRake)
    allActual := stats.allActual + profit
    showdown :=
      if isShowdownResult hand.hero_hand_result then stats.showdown + profit
      else stats.showdown
    noShowdown :=
      if isShowdownResult hand.hero_hand_result then stats.noShowdown
      else stats.noShowdown + profit }

/-- accumulateIntervalData: fold the current cumulative values into the
interval accumulator and bump the in-interval hand count. -/
def accumulateIntervalData (acc : IntervalAccumulator) (cum : CumulativeStats) :
    IntervalAccumulator :=
  { allWithRake := acc.allWithRake + cum.allWithRake
    allActual := acc.allActual + cum.allActual
    showdown := acc.showdown + cum.showdown
    noShowdown := acc.noShowdown + cum.noShowdown
    count := acc.count + 1 }

/-- calculateCurrentBB100: instantaneous BB-per-100 ratios of the running
sums, short-circuiting to zero when no big blinds have accumulated. -/
def calculateCurrentBB100 (cum : CumulativeStats) (cumulativeBigBlinds : ℚ) :
    CumulativeStats :=
  if cumulativeBigBlinds ≤ 0 then ⟨0, 0, 0, 0⟩
  else
    ⟨cum.allWithRake / cumulativeBigBlinds * 100,
     cum.allActual / cumulativeBigBlinds * 100,
     cum.showdown / cumulativeBigBlinds * 100,
     cum.noShowdown / cumulativeBigBlinds * 100⟩

/-- accumulateBB100Data: fold the instantaneous ratios into the BB100
interval accumulator and bump the count. -/
def accumulateBB100Data (acc : BB100Accumulator) (currentBB100 : CumulativeStats) :
    BB100Accumulator :=
  { bb100AllWithRake := acc.bb100AllWithRake + currentBB100.allWithRake
    bb100AllActual := acc.bb100AllActual + currentBB100.allActual
    bb100Showdown := acc.bb100Showdown + currentBB100.showdown
    bb100NoShowdown := acc.bb100NoShowdown + currentBB100.noShowdown
    count := acc.count + 1 }

/-- shouldCreateDataPoint: emit on interval boundaries (1-based hand number
divisible by the interval) and on the last hand overall. -/
def shouldCreateDataPoint (handNumber interval index totalHands : ℕ) : Bool :=
  handNumber % interval == 0 || index == totalHands - 1

/-- createDataPoint: package an emitted value, rounded to two decimals. -/
def createDataPoint (handNumber : ℕ) (value : ℚ) (timestamp : String) :
    ChartDataPoint :=
  { handNumber := handNumber, value := roundToDecimals value, timestamp := timestamp }

/-- addProfitDataPoints: push one averaged point onto each of the four
profit series (here by consing in front of the series built from the rest
of the scan, which yields the same order the source pushes in). -/
def addProfitDataPoints (acc : IntervalAccumulator) (handNumber : ℕ)
    (timestamp : String) (rest : ProfitChartData) : ProfitChartData :=
  let avgAllWithRake := acc.allWithRake / (acc.count : ℚ)
  let avgAllActual := acc.allActual / (acc.count : ℚ)
  let avgShowdown := acc.showdown / (acc.count : ℚ)
  let avgNoShowdown := acc.noShowdown / (acc.count : ℚ)
  { allHandsWithRake :=
      createDataPoint handNumber avgAllWithRake timestamp :: rest.allHandsWithRake
    allHandsActual :=
      createDataPoint handNumber avgAllActual timestamp :: rest.allHandsActual
    showdownOnly :=
      createDataPoint handNumber avgShowdown timestamp :: rest.showdownOnly
    noShowdownOnly :=
      createDataPoint handNumber avgNoShowdown timestamp :: rest.noShowdownOnly }

/-- addBB100DataPoints: push one averaged point onto each of the four
BB-per-100 series. -/
def addBB100DataPoints (acc : BB100Accumulator) (handNumber : ℕ)
    (timestamp : String) (rest : BB100ChartData) : BB100ChartData :=
  let avgBB100AllWithRake := acc.bb100AllWithRake / (acc.count : ℚ)
  let avgBB100AllActual := acc.bb100AllActual / (acc.count : ℚ)
  let avgBB100Showdown := acc.bb100Showdown / (acc.count : ℚ)
  let avgBB100NoShowdown := acc.bb100NoShowdown / (acc.count : ℚ)
  { allHandsWithRakeBB100 :=
      createDataPoint handNumber avgBB100AllWithRake timestamp ::
        rest.allHandsWithRakeBB100
    allHandsActualBB100 :=
      createDataPoint handNumber avgBB100AllActual timestamp ::
        rest.allHandsActualBB100
    showdownOnlyBB100 :=
      createDataPoint handNumber avgBB100Showdown timestamp ::
        rest.showdownOnlyBB100
    noShowdownOnlyBB100 :=
      createDataPoint handNumber avgBB100NoShowdown timestamp ::
        rest.noShowdownOnlyBB100 }

/-- The forEach body of calculateSmoothProfitData as a recursion over the
remaining hands, carrying the 0-based index, the cumulative stats and the
interval accumulator. -/
def smoothProfitLoop (interval totalHands : ℕ) :
    List PokerHand → ℕ → CumulativeStats → IntervalAccumulator → ProfitChartData
  | [], _, _, _ => ⟨[], [], [], []⟩
  | hand :: rest, index, cum, acc =>
    let cum1 := updateCumulativeStats cum hand
    let acc1 := accumulateIntervalData acc cum1
    let handNumber := index + 1
    if shouldCreateDataPoint handNumber interval index totalHands then
      addProfitDataPoints acc1 handNumber hand.hand_start_time
        (smoothProfitLoop interval totalHands rest (index + 1) cum1
          initIntervalAccumulator)
    else
      smoothProfitLoop interval totalHands rest (index + 1) cum1 acc1

/-- calculateSmoothProfitData: interval-smoothed cumulative profit series
under the four partitions. -/
def calculateSmoothProfitData (hands : List PokerHand) (interval : ℕ) :
    ProfitChartData :=
  smoothProfitLoop interval hands.length hands 0 initCumulativeStats
    initIntervalAccumulator

/-- The forEach body of calculateSmoothBB100Data as a recursion over the
remaining hands, additionally carrying the running big-blind total. -/
def smoothBB100Loop (interval totalHands : ℕ) :
    List PokerHand → ℕ → CumulativeStats → ℚ → BB100Accumulator → BB100ChartData
  | [], _, _, _, _ => ⟨[], [], [], []⟩
  | hand :: rest, index, cum, cumBB, acc =>
    let cum1 := updateCumulativeStats cum hand
    let cumBB1 := cumBB + hand.big_blind
    let current := calculateCurrentBB100 cum1 cumBB1
    let acc1 := accumulateBB100Data acc current
    let handNumber := index + 1
    if shouldCreateDataPoint handNumber interval index totalHands then
      addBB100DataPoints acc1 handNumber hand.hand_start_time
        (smoothBB100Loop interval totalHands rest (index + 1) cum1 cumBB1
          initBB100Accumulator)
    else
      smoothBB100Loop interval totalHands rest (index + 1) cum1 cumBB1 acc1

/-- calculateSmoothBB100Data: interval-smoothed BB-per-100 series under the
four partitions. -/
def calculateSmoothBB100Data (hands : List PokerHand) (interval : ℕ) :
    BB100ChartData :=
  smoothBB100Loop interval hands.length hands 0 initCumulativeStats 0
    initBB100Accumulator

/- ===== Duplicate-aware persistence adapter ===== -/

/-- A row of the poker_hands table as inserted by the parser
(DatabaseInsertHand), restricted to the natural key and the columns the
verified properties read; the remaining columns do not affect the
uniqueness semantics. -/
structure DatabaseInsertHand where
  hand_id : String
  hand_start_time : String
  hero_profit : ℚ
deriving DecidableEq

/-- Errors surfaced by the storage collaborator: the sqlite UNIQUE
constraint violation, or any other failure. -/
inductive DbError where
  | uniqueConstraintFailed
  | other (msg : String)
deriving DecidableEq

/-- The sqlite store, modelled as the ordered list of inserted rows. The
schema declares hand_id TEXT UNIQUE NOT NULL. -/
def getPokerHandById (db : List DatabaseInsertHand) (handId : String) :
    Option DatabaseInsertHand :=
  db.find? (fun r => r.hand_id == handId)

/-- insertPokerHand, modelled from the sqlite schema of the database layer:
an INSERT on a table with a UNIQUE constraint on hand_id fails with a
unique-constraint error when a row with that key exists, and appends the
row otherwise. -/
def insertPokerHand (db : List DatabaseInsertHand) (hand : DatabaseInsertHand) :
    Except DbError (List DatabaseInsertHand) :=
  if (getPokerHandById db hand.hand_id).isSome then
    Except.error DbError.uniqueConstraintFailed
  else Except.ok (db ++ [hand])

/-- isUniqueConstraintError from the utils module: recognises the sqlite
UNIQUE constraint failure message. -/
def isUniqueConstraintError : DbError → Bool
  | DbError.uniqueConstraintFailed => true
  | DbError.other _ => false

/-- isValidHandId from the utils module: the id is nonempty after
trimming. -/
def isValidHandId (handId : String) : Bool := handId.trim.length > 0

/-- The dbHand literal built inside saveHandToDatabase from a finalized
hand. -/
def toDbHand (hand : ParsedHand) : DatabaseInsertHand :=
  { hand_id := hand.handId
    hand_start_time := hand.timestamp
    hero_profit := hand.heroProfit }

/-- The try/catch around the insert in saveHandToDatabase: a
unique-constraint violation is downgraded to a skip that leaves the store
unchanged; any other error propagates. -/
def insertWithConstraintCatch (db : List DatabaseInsertHand)
    (hand : DatabaseInsertHand) : Except DbError (List DatabaseInsertHand) :=
  match insertPokerHand db hand with
  | Except.ok db1 => Except.ok db1
  | Except.error e =>
    if isUniqueConstraintError e then Except.ok db else Except.error e

/-- saveHandToDatabase: validate the id, pre-check for a duplicate and skip
if found, otherwise insert with the unique-constraint catch. -/
def saveHandToDatabase (db : List DatabaseInsertHand) (hand : ParsedHand) :
    Except DbError (List DatabaseInsertHand) :=
  if !isValidHandId hand.handId then Except.error (DbError.other "Invalid hand ID")
  else if (getPokerHandById db hand.handId).isSome then Except.ok db
  else insertWithConstraintCatch db (toDbHand hand)

/-- The save loop of parseHandLogFile over the collected hands. -/
def saveHands :
    List DatabaseInsertHand → List ParsedHand →
      Except DbError (List DatabaseInsertHand)
  | db, [] => Except.ok db
  | db, hand :: rest =>
    match saveHandToDatabase db hand with
    | Except.ok db1 => saveHands db1 rest
    | Except.error e => Except.error e

/-- The store effect of parseHandLogFile: the scan phase drops hands whose
id is already stored (counting them as skipped), then the kept hands are
saved in order. -/
def parseHandLogFile (db : List DatabaseInsertHand) (hands : List ParsedHand) :
    Except DbError (List DatabaseInsertHand) :=
  saveHands db (hands.filter (fun h => (getPokerHandById db h.handId).isNone))

/- ===== Concrete inputs used in examples, witnesses and counterexamples ===== -/

/-- A hand whose summary said the hero showed and collected 2.00 while the
parser accumulated a 5.00 preflop investment (for example a raise to 5 that
chopped back only 2): the classification is a showdown win although the
final net profit is negative. -/
def c2Hand : PartialParsedHand :=
  parseHeroResult
    (updateInvestment (initPartialHand "h2" "t0" (1/20) (1/10)) 5 HandSection.preflop)
    none (some 2) true

/-- A hand with no hero investment recorded yet. -/
def c9Hand : PartialParsedHand := initPartialHand "h9" "t0" (1/20) (1/10)

/-- A hand that reached the turn without a showdown. -/
def c7Hand : PartialParsedHand :=
  { initPartialHand "h7" "t0" (1/20) (1/10) with
      flopCards := "8s 5s 4h", turnCard := "9c" }

/-- A stored hand row with profit 2, no rake, timestamp the decimal print of
its 0-based index. -/
def testHand (i : ℕ) : PokerHand :=
  { hand_start_time := toString i
    big_blind := 1
    hero_profit := 2
    hero_rake := 0
    hero_hand_result := "no_showdown_win"
    final_stage := "preflop" }

/-- The 150-hand input of the final-interval flush example. -/
def hands150 : List PokerHand := (List.range 150).map testHand

/-- A stored losing showdown hand with nonzero recorded rake. -/
def losingHand : PokerHand :=
  { hand_start_time := "t1"
    big_blind := 1/10
    hero_profit := -(3/2)
    hero_rake := 1/4
    hero_hand_result := "showdown_loss"
    final_stage := "showdown" }

/-- A stored winning non-showdown hand. -/
def winningHand : PokerHand :=
  { hand_start_time := "t2"
    big_blind := 1/10
    hero_profit := 3/5
    hero_rake := 1/20
    hero_hand_result := "no_showdown_win"
    final_stage := "flop" }

/-- A finalized record used to exercise the persistence adapter. -/
def c8Record : ParsedHand :=
  finalizeHand
    (parseHeroResult
      (updateInvestment (initPartialHand "h8" "t0" (1/20) (1/10)) 1 HandSection.preflop)
      none (some 2) false)
    (some 4) (some 3)

/-- Pointwise relation between the showdown-only, non-showdown-only and
actual series: at every position the three stored (rounded) values come
from pre-rounding values of which the first two sum to the third. -/
def preRoundAdditive :
    List ChartDataPoint → List ChartDataPoint → List ChartDataPoint → Prop
  | [], [], [] => True
  | p :: ps, q :: qs, r :: rs =>
    (∃ s n : ℚ, p.value = roundToDecimals s ∧ q.value = roundToDecimals n ∧
      r.value = roundToDecimals (s + n)) ∧ preRoundAdditive ps qs rs
  | _, _, _ => False

/- ===== Helper lemmas ===== -/

/-- Rounding a nonnegative rational to two decimals stays nonnegative. -/
theorem roundToDecimals_nonneg {q : ℚ} (hq : 0 ≤ q) : 0 ≤ roundToDecimals q := by
  unfold roundToDecimals mathRound
  have h1 : (0 : ℤ) ≤ Rat.floor (q * 100 + 1 / 2) := by
    rw [Rat.le_floor]
    push_cast
    nlinarith
  exact div_nonneg (by exact_mod_cast h1) (by norm_num)

/-- Writing then reading the same street of the investments record. -/
theorem street_setStreet (inv : HeroInvestments) (s : HandSection) (v : ℚ) :
    (inv.setStreet s v).street s = v := by
  cases s <;> rfl

/-- The finalized record stores the accumulated result, defaulted to a
non-showdown loss. -/
theorem finalizeHand_handResult (hand : PartialParsedHand)
    (heroSeat buttonSeat : Option ℤ) :
    (finalizeHand hand heroSeat buttonSeat).handResult =
      hand.handResult.getD HandResult.noShowdownLoss := rfl

/-- determineFinalStage returns showdown exactly for showdown results. -/
theorem determineFinalStage_eq_showdown (hand : PartialParsedHand) :
    determineFinalStage hand = FinalStage.showdown ↔
      hand.handResult = some HandResult.showdownWin ∨
      hand.handResult = some HandResult.showdownLoss := by
  unfold determineFinalStage
  split_ifs with h1 h2 h3 h4 <;> simp_all

/-- The defaulted result is a showdown variant exactly when the optional
result is one. -/
theorem handResult_getD_showdown (o : Option HandResult) :
    (o.getD HandResult.noShowdownLoss = HandResult.showdownWin ∨
      o.getD HandResult.noShowdownLoss = HandResult.showdownLoss) ↔
      (o = some HandResult.showdownWin ∨ o = some HandResult.showdownLoss) := by
  cases o <;> simp

/- ===== Claim theorems ===== -/

/-- C1: for every finalized hand, the final net profit is
round2(collected - totalInvestment) when the collected amount parsed from
the summary is positive and round2(-totalInvestment) otherwise, where
totalInvestment is the 2-decimal rounding of the sum of the four per-street
investments; collected 5.00 against investments summing to 2.00 gives 3.00,
and collected 0 against investments summing to 1.50 gives -1.50. -/
theorem c1_final_profit_formula :
    (∀ (hand : PartialParsedHand) (heroSeat buttonSeat : Option ℤ),
      (finalizeHand hand heroSeat buttonSeat).heroProfit =
        (if hand.heroProfit > 0 then
          roundToDecimals (hand.heroProfit - roundToDecimals
            (hand.heroInvestments.preflop + hand.heroInvestments.flop +
              hand.heroInvestments.turn + hand.heroInvestments.river))
        else
          roundToDecimals (-(roundToDecimals
            (hand.heroInvestments.preflop + hand.heroInvestments.flop +
              hand.heroInvestments.turn + hand.heroInvestments.river)))))
    ∧ (finalizeHand
        { initPartialHand "h1" "t0" (1/20) (1/10) with
            heroProfit := 5, heroInvestments := ⟨2, 0, 0, 0⟩ }
        (some 1) (some 2)).heroProfit = 3
    ∧ (finalizeHand
        { initPartialHand "h1" "t0" (1/20) (1/10) with
            heroProfit := 0, heroInvestments := ⟨3/2, 0, 0, 0⟩ }
        (some 1) (some 2)).heroProfit = -(3/2) := by
  refine ⟨fun hand heroSeat buttonSeat => rfl, ?_, ?_⟩
  · with_unfolding_all rfl
  · with_unfolding_all rfl

/-- C7: for every finalized hand record, the final stage is showdown exactly
when the hand result is a showdown variant; otherwise the stage is river,
turn, flop or preflop according to the last community card recorded. -/
theorem c7_final_stage_consistency :
    (∀ (hand : PartialParsedHand) (heroSeat buttonSeat : Option ℤ),
      ((finalizeHand hand heroSeat buttonSeat).finalStage = FinalStage.showdown ↔
        (finalizeHand hand heroSeat buttonSeat).handResult = HandResult.showdownWin ∨
        (finalizeHand hand heroSeat buttonSeat).handResult = HandResult.showdownLoss))
    ∧ (∀ (hand : PartialParsedHand) (heroSeat buttonSeat : Option ℤ),
      (finalizeHand hand heroSeat buttonSeat).finalStage ≠ FinalStage.showdown →
      (finalizeHand hand heroSeat buttonSeat).finalStage =
        (if (finalizeHand hand heroSeat buttonSeat).riverCard ≠ "" then FinalStage.river
          else if (finalizeHand hand heroSeat buttonSeat).turnCard ≠ "" then FinalStage.turn
          else if (finalizeHand hand heroSeat buttonSeat).flopCards ≠ "" then FinalStage.flop
          else FinalStage.preflop)) := by
  constructor
  · intro hand heroSeat buttonSeat
    show determineFinalStage hand = FinalStage.showdown ↔
      hand.handResult.getD HandResult.noShowdownLoss = HandResult.showdownWin ∨
      hand.handResult.getD HandResult.noShowdownLoss = HandResult.showdownLoss
    rw [handResult_getD_showdown]
    exact determineFinalStage_eq_showdown hand
  · intro hand heroSeat buttonSeat h
    have hns : ¬(hand.handResult = some HandResult.showdownWin ∨
        hand.handResult = some HandResult.showdownLoss) := by
      intro hc
      exact h ((determineFinalStage_eq_showdown hand).2 hc)
    show determineFinalStage hand = _
    unfold determineFinalStage
    rw [if_neg hns]
    rfl

/-- C2 counterexample: a hand whose summary line showed the hero collecting
2.00 after investing 5.00 preflop is classified ShowdownWin while its stored
final profit is -3.00, so the win classification does not match the sign of
the stored net profit. -/
theorem c2_claim_counterexample :
    ((finalizeHand c2Hand (some 1) (some 2)).handResult = HandResult.showdownWin ∨
      (finalizeHand c2Hand (some 1) (some 2)).handResult = HandResult.noShowdownWin) ∧
    ¬((finalizeHand c2Hand (some 1) (some 2)).heroProfit > 0) := by
  constructor
  · left
    with_unfolding_all rfl
  · have hv : (finalizeHand c2Hand (some 1) (some 2)).heroProfit = -3 := by
      with_unfolding_all rfl
    rw [hv]
    norm_num

/-- C2 amended: for every hand whose result was classified by the summary
parser, the finalized record's result is a win variant exactly when the
collected amount recorded by that parse is positive (the stored final
profit, being net of investment, can still be nonpositive). -/
theorem c2_win_classification_amended :
    ∀ (hand : PartialParsedHand) (wonAmount collectedAmount : Option ℚ)
      (showed : Bool) (heroSeat buttonSeat : Option ℤ),
      ((finalizeHand (parseHeroResult hand wonAmount collectedAmount showed)
          heroSeat buttonSeat).handResult = HandResult.showdownWin ∨
        (finalizeHand (parseHeroResult hand wonAmount collectedAmount showed)
          heroSeat buttonSeat).handResult = HandResult.noShowdownWin) ↔
      (parseHeroResult hand wonAmount collectedAmount showed).heroProfit > 0 := by
  intro hand wonAmount collectedAmount showed heroSeat buttonSeat
  rw [finalizeHand_handResult]
  unfold parseHeroResult
  cases wonAmount <;> cases collectedAmount <;> cases showed <;>
    dsimp only [Option.getD] <;> split_ifs <;> simp_all

/-- C3 counterexample: with hero seat 1 and button seat 8 (both integer
seats present), the resolver returns BTN but the element of the fixed
rotation at index (1 - 8 + 6) mod 6 = 5 is CO. -/
theorem c3_claim_counterexample :
    determineHeroPosition (some 1) (some 8) = PokerPosition.BTN ∧
    positions.getD (((1 : ℤ) - 8 + 6) % 6).toNat PokerPosition.BTN = PokerPosition.CO ∧
    PokerPosition.BTN ≠ PokerPosition.CO := by
  refine ⟨by decide, by decide, by decide⟩

/-- C3 amended: for integer seats that are both at least 1 and satisfy
heroSeat - buttonSeat + 6 at least 0 (in particular all physical 6-max
seats 1 through 6), the resolved position is the element of the fixed
rotation [BTN, SB, BB, UTG, HJ, CO] at index (heroSeat - buttonSeat + 6)
mod 6; outside that range the JS remainder is negative and the resolver
falls back to BTN. With button seat 3: hero seat 3 gives BTN, seat 4 gives
SB and seat 2 gives CO. -/
theorem c3_position_rotation_amended :
    (∀ heroSeat buttonSeat : ℤ, 1 ≤ heroSeat → 1 ≤ buttonSeat →
      0 ≤ heroSeat - buttonSeat + 6 →
      determineHeroPosition (some heroSeat) (some buttonSeat) =
        positions.getD ((heroSeat - buttonSeat + 6) % 6).toNat PokerPosition.BTN)
    ∧ determineHeroPosition (some 3) (some 3) = PokerPosition.BTN
    ∧ determineHeroPosition (some 4) (some 3) = PokerPosition.SB
    ∧ determineHeroPosition (some 2) (some 3) = PokerPosition.CO := by
  refine ⟨?_, by decide, by decide, by decide⟩
  intro heroSeat buttonSeat h1 hb hnn
  unfold determineHeroPosition
  have hf1 : isFalsySeat (some heroSeat) = false := by
    simp only [isFalsySeat, beq_eq_false_iff_ne, ne_eq]
    omega
  have hf2 : isFalsySeat (some buttonSeat) = false := by
    simp only [isFalsySeat, beq_eq_false_iff_ne, ne_eq]
    omega
  rw [hf1, hf2]
  simp only [Bool.or_self, Bool.false_eq_true, if_false, Option.getD_some]
  have hrel : calculateRelativePosition heroSeat buttonSeat 6 =
      (heroSeat - buttonSeat + 6) % 6 := by
    unfold calculateRelativePosition
    exact Int.tmod_eq_emod hnn (by norm_num)
  rw [hrel]
  rw [if_neg (by exact not_lt.2 (Int.emod_nonneg _ (by norm_num)))]

/-- C3 witness: the amended rotation law applied at hero seat 3, button
seat 3. -/
theorem c3_position_rotation_witness :
    (1 ≤ (3 : ℤ) ∧ 1 ≤ (3 : ℤ) ∧ 0 ≤ (3 : ℤ) - 3 + 6) ∧
    determineHeroPosition (some 3) (some 3) =
      positions.getD (((3 : ℤ) - 3 + 6) % 6).toNat PokerPosition.BTN :=
  ⟨by refine ⟨by norm_num, by norm_num, by norm_num⟩,
    c3_position_rotation_amended.1 3 3 (by norm_num) (by norm_num) (by norm_num)⟩

/-- C7 witness: the stage chain of the consistency theorem applied to a
concrete hand that reached the turn without a showdown. -/
theorem c7_final_stage_witness :
    (finalizeHand c7Hand (some 1) (some 2)).finalStage ≠ FinalStage.showdown ∧
    (finalizeHand c7Hand (some 1) (some 2)).finalStage =
      (if (finalizeHand c7Hand (some 1) (some 2)).riverCard ≠ "" then FinalStage.river
        else if (finalizeHand c7Hand (some 1) (some 2)).turnCard ≠ "" then FinalStage.turn
        else if (finalizeHand c7Hand (some 1) (some 2)).flopCards ≠ "" then FinalStage.flop
        else FinalStage.preflop) :=
  ⟨by decide, c7_final_stage_consistency.2 c7Hand (some 1) (some 2) (by decide)⟩

/-- C9 counterexample: applying the uncalled-bet correction with a returned
amount of 5.00 to a hand whose preflop investment is 0 drives that street's
investment to -5.00, which is negative. -/
theorem c9_claim_counterexample :
    (parseUncalledBet c9Hand 5 HandSection.preflop).heroInvestments.preflop < 0 := by
  have hv : (parseUncalledBet c9Hand 5 HandSection.preflop).heroInvestments.preflop = -5 := by
    with_unfolding_all rfl
  rw [hv]
  norm_num

/-- C9 amended: the per-street investment stays nonnegative after the
uncalled-bet correction provided the street's investment was nonnegative
and the returned amount does not exceed it; in general the parser applies
the subtraction as computed, which can go negative on inputs whose refund
exceeds the recorded investment. -/
theorem c9_investment_nonneg_amended :
    ∀ (hand : PartialParsedHand) (amount : ℚ) (sec : HandSection),
      0 ≤ hand.heroInvestments.street sec →
      amount ≤ hand.heroInvestments.street sec →
      0 ≤ (parseUncalledBet hand amount sec).heroInvestments.street sec := by
  intro hand amount sec h0 hle
  show 0 ≤ (hand.heroInvestments.setStreet sec
    (roundToDecimals (hand.heroInvestments.street sec - amount))).street sec
  rw [street_setStreet]
  exact roundToDecimals_nonneg (by linarith)

/-- C9 witness: the amended nonnegativity applied to a hand with zero
preflop investment and a zero returned amount. -/
theorem c9_investment_nonneg_witness :
    (0 ≤ c9Hand.heroInvestments.street HandSection.preflop ∧
      (0 : ℚ) ≤ c9Hand.heroInvestments.street HandSection.preflop) ∧
    0 ≤ (parseUncalledBet c9Hand 0 HandSection.preflop).heroInvestments.street
        HandSection.preflop :=
  ⟨⟨le_refl 0, le_refl 0⟩,
    c9_investment_nonneg_amended c9Hand 0 HandSection.preflop (le_refl 0) (le_refl 0)⟩

/-- The emission test of the loop, rewritten from the 0-based index form to
the 1-based ordinal form, under the loop invariant that the index plus the
number of remaining hands is the total. -/
theorem shouldCreateDataPoint_ordinal (interval total idx n : ℕ)
    (hlen : idx + (n + 1) = total) :
    shouldCreateDataPoint (idx + 1) interval idx total =
      ((idx + 1) % interval == 0 || (idx + 1) == total) := by
  unfold shouldCreateDataPoint
  have h3 : (idx == total - 1) = ((idx + 1) == total) := by
    rw [Bool.eq_iff_iff]
    simp only [beq_iff_eq]
    omega
  rw [h3]

/-- The hand numbers carried by every one of the four profit series are
exactly the 1-based ordinals in the remaining window that are divisible by
the interval or equal to the total hand count. -/
theorem smoothProfitLoop_handNumbers (interval total : ℕ) (rest : List PokerHand) :
    ∀ (idx : ℕ) (cum : CumulativeStats) (acc : IntervalAccumulator),
      idx + rest.length = total →
      ((smoothProfitLoop interval total rest idx cum acc).allHandsWithRake.map
          (fun p => p.handNumber) =
        (List.range' (idx + 1) rest.length).filter
          (fun j => j % interval == 0 || j == total) ∧
      (smoothProfitLoop interval total rest idx cum acc).allHandsActual.map
          (fun p => p.handNumber) =
        (List.range' (idx + 1) rest.length).filter
          (fun j => j % interval == 0 || j == total) ∧
      (smoothProfitLoop interval total rest idx cum acc).showdownOnly.map
          (fun p => p.handNumber) =
        (List.range' (idx + 1) rest.length).filter
          (fun j => j % interval == 0 || j == total) ∧
      (smoothProfitLoop interval total rest idx cum acc).noShowdownOnly.map
          (fun p => p.handNumber) =
        (List.range' (idx + 1) rest.length).filter
          (fun j => j % interval == 0 || j == total)) := by
  induction rest with
  | nil =>
    intro idx cum acc _
    simp [smoothProfitLoop]
  | cons hand rest ih =>
    intro idx cum acc hlen
    simp only [List.length_cons] at hlen
    have hlen1 : (idx + 1) + rest.length = total := by omega
    have hcond := shouldCreateDataPoint_ordinal interval total idx rest.length hlen
    simp only [List.length_cons]
    rw [List.range'_succ]
    by_cases hc : ((idx + 1) % interval == 0 || (idx + 1) == total) = true
    · have hstep : smoothProfitLoop interval total (hand :: rest) idx cum acc =
          addProfitDataPoints
            (accumulateIntervalData acc (updateCumulativeStats cum hand))
            (idx + 1) hand.hand_start_time
            (smoothProfitLoop interval total rest (idx + 1)
              (updateCumulativeStats cum hand) initIntervalAccumulator) := by
        rw [smoothProfitLoop]
        simp only [hcond, hc, if_true]
      rw [hstep]
      have hfilter : List.filter (fun j => j % interval == 0 || j == total)
          ((idx + 1) :: List.range' (idx + 1 + 1) rest.length) =
          (idx + 1) :: List.filter (fun j => j % interval == 0 || j == total)
            (List.range' (idx + 1 + 1) rest.length) :=
        List.filter_cons_of_pos hc
      obtain ⟨ih1, ih2, ih3, ih4⟩ :=
        ih (idx + 1) (updateCumulativeStats cum hand) initIntervalAccumulator hlen1
      refine ⟨?_, ?_, ?_, ?_⟩
      · simp only [addProfitDataPoints, createDataPoint, List.map_cons, hfilter]
        rw [ih1]
      · simp only [addProfitDataPoints, createDataPoint, List.map_cons, hfilter]
        rw [ih2]
      · simp only [addProfitDataPoints, createDataPoint, List.map_cons, hfilter]
        rw [ih3]
      · simp only [addProfitDataPoints, createDataPoint, List.map_cons, hfilter]
        rw [ih4]
    · have hcf : ((idx + 1) % interval == 0 || (idx + 1) == total) = false :=
        Bool.eq_false_iff.mpr hc
      have hstep : smoothProfitLoop interval total (hand :: rest) idx cum acc =
          smoothProfitLoop interval total rest (idx + 1)
            (updateCumulativeStats cum hand)
            (accumulateIntervalData acc (updateCumulativeStats cum hand)) := by
        rw [smoothProfitLoop]
        simp only [hcond, hcf, Bool.false_eq_true, if_false]
      rw [hstep]
      have hfilter : List.filter (fun j => j % interval == 0 || j == total)
          ((idx + 1) :: List.range' (idx + 1 + 1) rest.length) =
          List.filter (fun j => j % interval == 0 || j == total)
            (List.range' (idx + 1 + 1) rest.length) :=
        List.filter_cons_of_neg hc
      rw [hfilter]
      exact ih (idx + 1) (updateCumulativeStats cum hand)
        (accumulateIntervalData acc (updateCumulativeStats cum hand)) hlen1

/-- The hand numbers carried by every one of the four BB-per-100 series are
exactly the same qualifying 1-based ordinals. -/
theorem smoothBB100Loop_handNumbers (interval total : ℕ) (rest : List PokerHand) :
    ∀ (idx : ℕ) (cum : CumulativeStats) (cumBB : ℚ) (acc : BB100Accumulator),
      idx + rest.length = total →
      ((smoothBB100Loop interval total rest idx cum cumBB acc).allHandsWithRakeBB100.map
          (fun p => p.handNumber) =
        (List.range' (idx + 1) rest.length).filter
          (fun j => j % interval == 0 || j == total) ∧
      (smoothBB100Loop interval total rest idx cum cumBB acc).allHandsActualBB100.map
          (fun p => p.handNumber) =
        (List.range' (idx + 1) rest.length).filter
          (fun j => j % interval == 0 || j == total) ∧
      (smoothBB100Loop interval total rest idx cum cumBB acc).showdownOnlyBB100.map
          (fun p => p.handNumber) =
        (List.range' (idx + 1) rest.length).filter
          (fun j => j % interval == 0 || j == total) ∧
      (smoothBB100Loop interval total rest idx cum cumBB acc).noShowdownOnlyBB100.map
          (fun p => p.handNumber) =
        (List.range' (idx + 1) rest.length).filter
          (fun j => j % interval == 0 || j == total)) := by
  induction rest with
  | nil =>
    intro idx cum cumBB acc _
    simp [smoothBB100Loop]
  | cons hand rest ih =>
    intro idx cum cumBB acc hlen
    simp only [List.length_cons] at hlen
    have hlen1 : (idx + 1) + rest.length = total := by omega
    have hcond := shouldCreateDataPoint_ordinal interval total idx rest.length hlen
    simp only [List.length_cons]
    rw [List.range'_succ]
    by_cases hc : ((idx + 1) % interval == 0 || (idx + 1) == total) = true
    · have hstep : smoothBB100Loop interval total (hand :: rest) idx cum cumBB acc =
          addBB100DataPoints
            (accumulateBB100Data acc
              (calculateCurrentBB100 (updateCumulativeStats cum hand)
                (cumBB + hand.big_blind)))
            (idx + 1) hand.hand_start_time
            (smoothBB100Loop interval total rest (idx + 1)
              (updateCumulativeStats cum hand) (cumBB + hand.big_blind)
              initBB100Accumulator) := by
        rw [smoothBB100Loop]
        simp only [hcond, hc, if_true]
      rw [hstep]
      have hfilter : List.filter (fun j => j % interval == 0 || j == total)
          ((idx + 1) :: List.range' (idx + 1 + 1) rest.length) =
          (idx + 1) :: List.filter (fun j => j % interval == 0 || j == total)
            (List.range' (idx + 1 + 1) rest.length) :=
        List.filter_cons_of_pos hc
      obtain ⟨ih1, ih2, ih3, ih4⟩ :=
        ih (idx + 1) (updateCumulativeStats cum hand) (cumBB + hand.big_blind)
          initBB100Accumulator hlen1
      refine ⟨?_, ?_, ?_, ?_⟩
      · simp only [addBB100DataPoints, createDataPoint, List.map_cons, hfilter]
        rw [ih1]
      · simp only [addBB100DataPoints, createDataPoint, List.map_cons, hfilter]
        rw [ih2]
      · simp only [addBB100DataPoints, createDataPoint, List.map_cons, hfilter]
        rw [ih3]
      · simp only [addBB100DataPoints, createDataPoint, List.map_cons, hfilter]
        rw [ih4]
    · have hcf : ((idx + 1) % interval == 0 || (idx + 1) == total) = false :=
        Bool.eq_false_iff.mpr hc
      have hstep : smoothBB100Loop interval total (hand :: rest) idx cum cumBB acc =
          smoothBB100Loop interval total rest (idx + 1)
            (updateCumulativeStats cum hand) (cumBB + hand.big_blind)
            (accumulateBB100Data acc
              (calculateCurrentBB100 (updateCumulativeStats cum hand)
                (cumBB + hand.big_blind))) := by
        rw [smoothBB100Loop]
        simp only [hcond, hcf, Bool.false_eq_true, if_false]
      rw [hstep]
      have hfilter : List.filter (fun j => j % interval == 0 || j == total)
          ((idx + 1) :: List.range' (idx + 1 + 1) rest.length) =
          List.filter (fun j => j % interval == 0 || j == total)
            (List.range' (idx + 1 + 1) rest.length) :=
        List.filter_cons_of_neg hc
      rw [hfilter]
      exact ih (idx + 1) (updateCumulativeStats cum hand) (cumBB + hand.big_blind)
        (accumulateBB100Data acc
          (calculateCurrentBB100 (updateCumulativeStats cum hand)
            (cumBB + hand.big_blind))) hlen1

/-- When the running gross and actual sums agree and every remaining hand
has nonpositive profit, the gross-without-rake series of the loop equals
the actual series. -/
theorem smoothProfitLoop_withRake_eq_actual (interval total : ℕ)
    (rest : List PokerHand) :
    ∀ (idx : ℕ) (cum : CumulativeStats) (acc : IntervalAccumulator),
      cum.allWithRake = cum.allActual →
      acc.allWithRake = acc.allActual →
      (∀ hand ∈ rest, hand.hero_profit ≤ 0) →
      (smoothProfitLoop interval total rest idx cum acc).allHandsWithRake =
        (smoothProfitLoop interval total rest idx cum acc).allHandsActual := by
  induction rest with
  | nil =>
    intro idx cum acc _ _ _
    rfl
  | cons hand rest ih =>
    intro idx cum acc hcum hacc hall
    have hprof : hand.hero_profit ≤ 0 := hall hand (List.mem_cons_self hand rest)
    have hall1 : ∀ h ∈ rest, h.hero_profit ≤ 0 :=
      fun h hm => hall h (List.mem_cons_of_mem hand hm)
    have hcum1 : (updateCumulativeStats cum hand).allWithRake =
        (updateCumulativeStats cum hand).allActual := by
      unfold updateCumulativeStats
      dsimp only
      rw [if_neg (not_lt.2 hprof), hcum]
      ring
    have hacc1 : (accumulateIntervalData acc (updateCumulativeStats cum hand)).allWithRake =
        (accumulateIntervalData acc (updateCumulativeStats cum hand)).allActual := by
      unfold accumulateIntervalData
      dsimp only
      rw [hacc, hcum1]
    rw [smoothProfitLoop]
    by_cases hc : shouldCreateDataPoint (idx + 1) interval idx total = true
    · simp only [hc, if_true]
      simp only [addProfitDataPoints, createDataPoint]
      rw [hacc1, ih (idx + 1) (updateCumulativeStats cum hand)
        initIntervalAccumulator hcum1 rfl hall1]
    · have hcf : shouldCreateDataPoint (idx + 1) interval idx total = false :=
        Bool.eq_false_iff.mpr hc
      simp only [hcf, Bool.false_eq_true, if_false]
      exact ih (idx + 1) (updateCumulativeStats cum hand)
        (accumulateIntervalData acc (updateCumulativeStats cum hand)) hcum1 hacc1 hall1

/-- When the running showdown and non-showdown sums add up to the running
actual sum (both in the cumulative state and in the interval accumulator),
the emitted showdown and non-showdown values sum pre-rounding to the
emitted actual value at every point of the loop. -/
theorem smoothProfitLoop_preRoundAdditive (interval total : ℕ)
    (rest : List PokerHand) :
    ∀ (idx : ℕ) (cum : CumulativeStats) (acc : IntervalAccumulator),
      cum.showdown + cum.noShowdown = cum.allActual →
      acc.showdown + acc.noShowdown = acc.allActual →
      preRoundAdditive (smoothProfitLoop interval total rest idx cum acc).showdownOnly
        (smoothProfitLoop interval total rest idx cum acc).noShowdownOnly
        (smoothProfitLoop interval total rest idx cum acc).allHandsActual := by
  induction rest with
  | nil =>
    intro idx cum acc _ _
    trivial
  | cons hand rest ih =>
    intro idx cum acc hcum hacc
    have hcum1 : (updateCumulativeStats cum hand).showdown +
        (updateCumulativeStats cum hand).noShowdown =
        (updateCumulativeStats cum hand).allActual := by
      unfold updateCumulativeStats
      dsimp only
      split_ifs <;> rw [← hcum] <;> ring
    have hacc1 : (accumulateIntervalData acc (updateCumulativeStats cum hand)).showdown +
        (accumulateIntervalData acc (updateCumulativeStats cum hand)).noShowdown =
        (accumulateIntervalData acc (updateCumulativeStats cum hand)).allActual := by
      unfold accumulateIntervalData
      dsimp only
      rw [← hacc, ← hcum1]
      ring
    rw [smoothProfitLoop]
    by_cases hc : shouldCreateDataPoint (idx + 1) interval idx total = true
    · simp only [hc, if_true]
      simp only [addProfitDataPoints, createDataPoint]
      constructor
      · refine ⟨(accumulateIntervalData acc (updateCumulativeStats cum hand)).showdown /
            ((accumulateIntervalData acc (updateCumulativeStats cum hand)).count : ℚ),
          (accumulateIntervalData acc (updateCumulativeStats cum hand)).noShowdown /
            ((accumulateIntervalData acc (updateCumulativeStats cum hand)).count : ℚ),
          rfl, rfl, ?_⟩
        rw [div_add_div_same, hacc1]
      · exact ih (idx + 1) (updateCumulativeStats cum hand) initIntervalAccumulator
          hcum1 (by norm_num [initIntervalAccumulator])
    · have hcf : shouldCreateDataPoint (idx + 1) interval idx total = false :=
        Bool.eq_false_iff.mpr hc
      simp only [hcf, Bool.false_eq_true, if_false]
      exact ih (idx + 1) (updateCumulativeStats cum hand)
        (accumulateIntervalData acc (updateCumulativeStats cum hand)) hcum1 hacc1

/-- Invariant of the cumulative fold: the showdown and non-showdown sums
partition the actual sum. -/
theorem foldl_updateCumulativeStats_partition (hands : List PokerHand) :
    ∀ (stats : CumulativeStats),
      stats.showdown + stats.noShowdown = stats.allActual →
      (List.foldl updateCumulativeStats stats hands).showdown +
          (List.foldl updateCumulativeStats stats hands).noShowdown =
        (List.foldl updateCumulativeStats stats hands).allActual := by
  induction hands with
  | nil => intro stats h; exact h
  | cons hand rest ih =>
    intro stats h
    rw [List.foldl_cons]
    refine ih (updateCumulativeStats stats hand) ?_
    unfold updateCumulativeStats
    dsimp only
    split_ifs <;> rw [← h] <;> ring

/-- Lists whose images under an injective-on-nothing map coincide have the
same length. -/
theorem length_eq_of_map_eq {α β : Type} {f : α → β} {l1 l2 : List α}
    (h : l1.map f = l2.map f) : l1.length = l2.length := by
  have h2 := congrArg List.length h
  simpa using h2

set_option maxRecDepth 100000 in
/-- C4: for every nonempty hand sequence and interval at least 1, the
smoothing loop emits points exactly at the 1-based ordinals divisible by
the interval plus the last hand; for interval 100 on a 150-hand input
exactly two points result, at ordinals 100 and 150, the first carrying the
average of the first 100 cumulative values and the last hand's timestamp of
its interval, the second averaging only the 50 remaining hands (profit 2
per hand gives averages 101 and 251 of the cumulative sums 2..200 and
202..300). -/
theorem c4_interval_emission :
    (∀ (hands : List PokerHand) (interval : ℕ), 1 ≤ interval → hands ≠ [] →
      (calculateSmoothProfitData hands interval).allHandsActual.map
          (fun p => p.handNumber) =
        (List.range' 1 hands.length).filter
          (fun j => j % interval == 0 || j == hands.length))
    ∧ (calculateSmoothProfitData hands150 100).allHandsActual =
        [⟨100, 101, "99"⟩, ⟨150, 251, "149"⟩] := by
  constructor
  · intro hands interval _ _
    unfold calculateSmoothProfitData
    have h := (smoothProfitLoop_handNumbers interval hands.length hands 0
      initCumulativeStats initIntervalAccumulator (Nat.zero_add _)).2.1
    simpa using h
  · with_unfolding_all rfl

/-- C4 witness: the emission law applied to a one-hand input at interval
1. -/
theorem c4_interval_emission_witness :
    (1 ≤ 1 ∧ [testHand 0] ≠ ([] : List PokerHand)) ∧
    (calculateSmoothProfitData [testHand 0] 1).allHandsActual.map
        (fun p => p.handNumber) =
      (List.range' 1 [testHand 0].length).filter
        (fun j => j % 1 == 0 || j == [testHand 0].length) :=
  ⟨⟨le_refl 1, by simp⟩,
    c4_interval_emission.1 [testHand 0] 1 (le_refl 1) (by simp)⟩

/-- C5: for every hand sequence and interval at least 1, the four profit
series carry identical ordinal sequences (hence identical lengths), and so
do the four BB-per-100 series. -/
theorem c5_series_alignment :
    ∀ (hands : List PokerHand) (interval : ℕ), 1 ≤ interval →
      ((calculateSmoothProfitData hands interval).allHandsWithRake.map
          (fun p => p.handNumber) =
        (calculateSmoothProfitData hands interval).allHandsActual.map
          (fun p => p.handNumber) ∧
      (calculateSmoothProfitData hands interval).showdownOnly.map
          (fun p => p.handNumber) =
        (calculateSmoothProfitData hands interval).allHandsActual.map
          (fun p => p.handNumber) ∧
      (calculateSmoothProfitData hands interval).noShowdownOnly.map
          (fun p => p.handNumber) =
        (calculateSmoothProfitData hands interval).allHandsActual.map
          (fun p => p.handNumber) ∧
      (calculateSmoothProfitData hands interval).allHandsWithRake.length =
        (calculateSmoothProfitData hands interval).allHandsActual.length ∧
      (calculateSmoothProfitData hands interval).showdownOnly.length =
        (calculateSmoothProfitData hands interval).allHandsActual.length ∧
      (calculateSmoothProfitData hands interval).noShowdownOnly.length =
        (calculateSmoothProfitData hands interval).allHandsActual.length) ∧
      ((calculateSmoothBB100Data hands interval).allHandsWithRakeBB100.map
          (fun p => p.handNumber) =
        (calculateSmoothBB100Data hands interval).allHandsActualBB100.map
          (fun p => p.handNumber) ∧
      (calculateSmoothBB100Data hands interval).showdownOnlyBB100.map
          (fun p => p.handNumber) =
        (calculateSmoothBB100Data hands interval).allHandsActualBB100.map
          (fun p => p.handNumber) ∧
      (calculateSmoothBB100Data hands interval).noShowdownOnlyBB100.map
          (fun p => p.handNumber) =
        (calculateSmoothBB100Data hands interval).allHandsActualBB100.map
          (fun p => p.handNumber) ∧
      (calculateSmoothBB100Data hands interval).allHandsWithRakeBB100.length =
        (calculateSmoothBB100Data hands interval).allHandsActualBB100.length ∧
      (calculateSmoothBB100Data hands interval).showdownOnlyBB100.length =
        (calculateSmoothBB100Data hands interval).allHandsActualBB100.length ∧
      (calculateSmoothBB100Data hands interval).noShowdownOnlyBB100.length =
        (calculateSmoothBB100Data hands interval).allHandsActualBB100.length) := by
  intro hands interval _
  unfold calculateSmoothProfitData calculateSmoothBB100Data
  obtain ⟨p1, p2, p3, p4⟩ := smoothProfitLoop_handNumbers interval hands.length hands 0
    initCumulativeStats initIntervalAccumulator (Nat.zero_add _)
  obtain ⟨b1, b2, b3, b4⟩ := smoothBB100Loop_handNumbers interval hands.length hands 0
    initCumulativeStats 0 initBB100Accumulator (Nat.zero_add _)
  refine ⟨⟨p1.trans p2.symm, p3.trans p2.symm, p4.trans p2.symm, ?_, ?_, ?_⟩,
    b1.trans b2.symm, b3.trans b2.symm, b4.trans b2.symm, ?_, ?_, ?_⟩
  · exact length_eq_of_map_eq (p1.trans p2.symm)
  · exact length_eq_of_map_eq (p3.trans p2.symm)
  · exact length_eq_of_map_eq (p4.trans p2.symm)
  · exact length_eq_of_map_eq (b1.trans b2.symm)
  · exact length_eq_of_map_eq (b3.trans b2.symm)
  · exact length_eq_of_map_eq (b4.trans b2.symm)

/-- C5 witness: the series alignment applied to a one-hand input at
interval 1. -/
theorem c5_series_alignment_witness :
    1 ≤ 1 ∧
    (calculateSmoothProfitData [testHand 0] 1).allHandsWithRake.map
        (fun p => p.handNumber) =
      (calculateSmoothProfitData [testHand 0] 1).allHandsActual.map
        (fun p => p.handNumber) :=
  ⟨le_refl 1, (c5_series_alignment [testHand 0] 1 (le_refl 1)).1.1⟩

/-- C6: each hand contributes profit plus rake to the gross-without-rake
running sum exactly when its profit is positive and contributes only its
profit otherwise; consequently, on a hand sequence of nonpositive profits
the gross-without-rake series equals the actual series. -/
theorem c6_rake_added_only_on_wins :
    (∀ (stats : CumulativeStats) (hand : PokerHand),
      (updateCumulativeStats stats hand).allWithRake =
        stats.allWithRake + (hand.hero_profit +
          (if hand.hero_profit > 0 then hand.hero_rake else 0)) ∧
      (hand.hero_profit ≤ 0 →
        (updateCumulativeStats stats hand).allWithRake =
          stats.allWithRake + hand.hero_profit))
    ∧ (∀ (hands : List PokerHand) (interval : ℕ),
      (∀ hand ∈ hands, hand.hero_profit ≤ 0) →
      (calculateSmoothProfitData hands interval).allHandsWithRake =
        (calculateSmoothProfitData hands interval).allHandsActual) := by
  constructor
  · intro stats hand
    refine ⟨rfl, fun hp => ?_⟩
    show stats.allWithRake + (hand.hero_profit +
      (if hand.hero_profit > 0 then hand.hero_rake else 0)) = _
    rw [if_neg (not_lt.2 hp)]
    ring
  · intro hands interval hall
    unfold calculateSmoothProfitData
    exact smoothProfitLoop_withRake_eq_actual interval hands.length hands 0
      initCumulativeStats initIntervalAccumulator rfl rfl hall

/-- C6 witness: the series coincidence applied to a single losing showdown
hand carrying a nonzero recorded rake. -/
theorem c6_rake_added_only_on_wins_witness :
    (∀ hand ∈ [losingHand], hand.hero_profit ≤ 0) ∧
    (calculateSmoothProfitData [losingHand] 1).allHandsWithRake =
      (calculateSmoothProfitData [losingHand] 1).allHandsActual := by
  have hall : ∀ hand ∈ [losingHand], hand.hero_profit ≤ 0 := by
    intro hand hm
    rw [List.mem_singleton] at hm
    subst hm
    norm_num [losingHand]
  exact ⟨hall, c6_rake_added_only_on_wins.2 [losingHand] 1 hall⟩

/-- C10: every hand's profit lands in exactly one of the showdown and
non-showdown running sums (any result tag other than the two showdown tags
counting as non-showdown), the two sums always partition the actual running
sum, and at every emitted point the stored showdown and non-showdown values
come from pre-rounding values summing to the pre-rounding actual value. -/
theorem c10_showdown_partition :
    (∀ (stats : CumulativeStats) (hand : PokerHand),
      (updateCumulativeStats stats hand).showdown =
        (if isShowdownResult hand.hero_hand_result then stats.showdown + hand.hero_profit
          else stats.showdown) ∧
      (updateCumulativeStats stats hand).noShowdown =
        (if isShowdownResult hand.hero_hand_result then stats.noShowdown
          else stats.noShowdown + hand.hero_profit) ∧
      (updateCumulativeStats stats hand).showdown +
          (updateCumulativeStats stats hand).noShowdown =
        stats.showdown + stats.noShowdown + hand.hero_profit)
    ∧ (∀ hands : List PokerHand,
      (List.foldl updateCumulativeStats initCumulativeStats hands).showdown +
          (List.foldl updateCumulativeStats initCumulativeStats hands).noShowdown =
        (List.foldl updateCumulativeStats initCumulativeStats hands).allActual)
    ∧ (∀ (hands : List PokerHand) (interval : ℕ),
      preRoundAdditive (calculateSmoothProfitData hands interval).showdownOnly
        (calculateSmoothProfitData hands interval).noShowdownOnly
        (calculateSmoothProfitData hands interval).allHandsActual) := by
  refine ⟨?_, ?_, ?_⟩
  · intro stats hand
    refine ⟨rfl, rfl, ?_⟩
    show (if isShowdownResult hand.hero_hand_result
        then stats.showdown + hand.hero_profit else stats.showdown) +
      (if isShowdownResult hand.hero_hand_result
        then stats.noShowdown else stats.noShowdown + hand.hero_profit) = _
    split_ifs <;> ring
  · intro hands
    exact foldl_updateCumulativeStats_partition hands initCumulativeStats
      (by norm_num [initCumulativeStats])
  · intro hands interval
    unfold calculateSmoothProfitData
    exact smoothProfitLoop_preRoundAdditive interval hands.length hands 0
      initCumulativeStats initIntervalAccumulator
      (by norm_num [initCumulativeStats]) (by norm_num [initIntervalAccumulator])

/-- A lookup succeeds exactly when some stored row carries the key. -/
theorem getPokerHandById_isSome_iff (db : List DatabaseInsertHand) (x : String) :
    (getPokerHandById db x).isSome = true ↔ ∃ r ∈ db, r.hand_id = x := by
  unfold getPokerHandById
  simp [List.find?_isSome]

/-- Case analysis of a successful save: the id was valid, and either the
pre-check found a duplicate and the store is unchanged, or the row was
appended. -/
theorem saveHandToDatabase_ok_cases {db db2 : List DatabaseInsertHand}
    {hand : ParsedHand} (h : saveHandToDatabase db hand = Except.ok db2) :
    isValidHandId hand.handId = true ∧
    (((getPokerHandById db hand.handId).isSome = true ∧ db2 = db) ∨
      ((getPokerHandById db hand.handId).isSome = false ∧
        db2 = db ++ [toDbHand hand])) := by
  unfold saveHandToDatabase insertWithConstraintCatch insertPokerHand at h
  cases hv : isValidHandId hand.handId <;> rw [hv] at h
  · simp at h
  · refine ⟨rfl, ?_⟩
    cases hd : (getPokerHandById db hand.handId).isSome <;>
      simp only [toDbHand] at h <;> rw [hd] at h <;> simp at h
    · exact Or.inr ⟨rfl, h.symm⟩
    · exact Or.inl ⟨rfl, h.symm⟩

/-- A successful save preserves every previously stored row. -/
theorem mem_of_saveHandToDatabase {db db2 : List DatabaseInsertHand}
    {hand : ParsedHand} (h : saveHandToDatabase db hand = Except.ok db2) :
    ∀ r ∈ db, r ∈ db2 := by
  obtain ⟨-, hcase⟩ := saveHandToDatabase_ok_cases h
  rcases hcase with ⟨-, rfl⟩ | ⟨-, rfl⟩
  · exact fun r hr => hr
  · exact fun r hr => List.mem_append_left _ hr

/-- After a successful save the hand's id is present in the store. -/
theorem present_after_save {db db2 : List DatabaseInsertHand} {hand : ParsedHand}
    (h : saveHandToDatabase db hand = Except.ok db2) :
    (getPokerHandById db2 hand.handId).isSome = true := by
  obtain ⟨-, hcase⟩ := saveHandToDatabase_ok_cases h
  rcases hcase with ⟨hd, rfl⟩ | ⟨hd, rfl⟩
  · exact hd
  · rw [getPokerHandById_isSome_iff]
    exact ⟨toDbHand hand, by simp, rfl⟩

/-- Presence of a key is preserved when the store only grows. -/
theorem presence_mono {db db2 : List DatabaseInsertHand}
    (hsub : ∀ r ∈ db, r ∈ db2) {x : String}
    (h : (getPokerHandById db x).isSome = true) :
    (getPokerHandById db2 x).isSome = true := by
  rw [getPokerHandById_isSome_iff] at h ⊢
  obtain ⟨r, hr, hx⟩ := h
  exact ⟨r, hsub r hr, hx⟩

/-- The save loop preserves every previously stored row. -/
theorem saveHands_mono (hands : List ParsedHand) :
    ∀ {db db2 : List DatabaseInsertHand}, saveHands db hands = Except.ok db2 →
      ∀ r ∈ db, r ∈ db2 := by
  induction hands with
  | nil =>
    intro db db2 h
    rw [saveHands] at h
    simp at h
    subst h
    exact fun r hr => hr
  | cons hand rest ih =>
    intro db db2 h
    rw [saveHands] at h
    cases hs : saveHandToDatabase db hand with
    | error e =>
      rw [hs] at h
      simp at h
    | ok db1 =>
      rw [hs] at h
      dsimp only at h
      exact fun r hr => ih h r (mem_of_saveHandToDatabase hs r hr)

/-- After a successful save loop, every processed hand's id is present. -/
theorem saveHands_present (hands : List ParsedHand) :
    ∀ {db db2 : List DatabaseInsertHand}, saveHands db hands = Except.ok db2 →
      ∀ hand ∈ hands, (getPokerHandById db2 hand.handId).isSome = true := by
  induction hands with
  | nil =>
    intro db db2 _ hand hm
    simp at hm
  | cons hand rest ih =>
    intro db db2 h h2 hm
    rw [saveHands] at h
    cases hs : saveHandToDatabase db hand with
    | error e =>
      rw [hs] at h
      simp at h
    | ok db1 =>
      rw [hs] at h
      dsimp only at h
      rcases List.mem_cons.1 hm with rfl | hm1
      · exact presence_mono (saveHands_mono rest h) (present_after_save hs)
      · exact ih h h2 hm1

/-- A successful save keeps the stored keys duplicate-free. -/
theorem saveHandToDatabase_nodup {db db2 : List DatabaseInsertHand}
    {hand : ParsedHand} (h : saveHandToDatabase db hand = Except.ok db2)
    (hnd : (db.map (fun r => r.hand_id)).Nodup) :
    (db2.map (fun r => r.hand_id)).Nodup := by
  obtain ⟨-, hcase⟩ := saveHandToDatabase_ok_cases h
  rcases hcase with ⟨-, rfl⟩ | ⟨hd, rfl⟩
  · exact hnd
  · rw [List.map_append, List.nodup_append]
    refine ⟨hnd, by simp, ?_⟩
    intro a ha hb
    simp only [List.map_cons, List.map_nil, List.mem_singleton] at hb
    rw [List.mem_map] at ha
    obtain ⟨r, hr, hra⟩ := ha
    have hex : (getPokerHandById db hand.handId).isSome = true := by
      rw [getPokerHandById_isSome_iff]
      exact ⟨r, hr, by rw [hra, hb]; rfl⟩
    rw [hd] at hex
    cases hex

/-- The save loop keeps the stored keys duplicate-free. -/
theorem saveHands_nodup (hands : List ParsedHand) :
    ∀ {db db2 : List DatabaseInsertHand}, saveHands db hands = Except.ok db2 →
      (db.map (fun r => r.hand_id)).Nodup →
      (db2.map (fun r => r.hand_id)).Nodup := by
  induction hands with
  | nil =>
    intro db db2 h hnd
    rw [saveHands] at h
    simp at h
    subst h
    exact hnd
  | cons hand rest ih =>
    intro db db2 h hnd
    rw [saveHands] at h
    cases hs : saveHandToDatabase db hand with
    | error e =>
      rw [hs] at h
      simp at h
    | ok db1 =>
      rw [hs] at h
      dsimp only at h
      exact ih h (saveHandToDatabase_nodup hs hnd)

/-- A successful file ingestion leaves every processed id present, so a
second pass over the same hands skips everything and changes nothing. -/
theorem parseHandLogFile_idempotent {db db2 : List DatabaseInsertHand}
    {hands : List ParsedHand} (h : parseHandLogFile db hands = Except.ok db2) :
    hands.filter (fun h2 => (getPokerHandById db2 h2.handId).isNone) = [] ∧
    parseHandLogFile db2 hands = Except.ok db2 := by
  unfold parseHandLogFile at h
  have hpresent : ∀ h2 ∈ hands, (getPokerHandById db2 h2.handId).isSome = true := by
    intro h2 hm
    by_cases hin : (getPokerHandById db h2.handId).isNone = true
    · have hmf : h2 ∈ hands.filter (fun x => (getPokerHandById db x.handId).isNone) :=
        List.mem_filter.2 ⟨hm, hin⟩
      exact saveHands_present _ h h2 hmf
    · have hsome : (getPokerHandById db h2.handId).isSome = true := by
        cases ho : getPokerHandById db h2.handId with
        | none => exact absurd (by simp [ho]) hin
        | some v => simp
      exact presence_mono (saveHands_mono _ h) hsome
  have hfil : hands.filter (fun h2 => (getPokerHandById db2 h2.handId).isNone) = [] := by
    rw [List.filter_eq_nil_iff]
    intro a ha
    have hsome := hpresent a ha
    rw [Option.isSome_iff_exists] at hsome
    obtain ⟨v, hv⟩ := hsome
    simp [hv]
  refine ⟨hfil, ?_⟩
  unfold parseHandLogFile
  rw [hfil]
  rfl

/-- C8: persisting a hand whose id is already stored is a skip, not an
error: the pre-insert lookup short-circuits; a unique-constraint violation
raised by the insert itself is also downgraded to a skip; the save loop
keeps at most one stored row per hand id; and ingesting the same hand list
twice yields exactly the store of the first ingestion, the second pass
finding every id already present. -/
theorem c8_idempotent_persistence :
    (∀ (db : List DatabaseInsertHand) (hand : ParsedHand),
      isValidHandId hand.handId = true →
      (getPokerHandById db hand.handId).isSome = true →
      saveHandToDatabase db hand = Except.ok db)
    ∧ (∀ (db : List DatabaseInsertHand) (row : DatabaseInsertHand),
      (getPokerHandById db row.hand_id).isSome = true →
      insertPokerHand db row = Except.error DbError.uniqueConstraintFailed ∧
      insertWithConstraintCatch db row = Except.ok db)
    ∧ (∀ (db db2 : List DatabaseInsertHand) (hands : List ParsedHand),
      (db.map (fun r => r.hand_id)).Nodup →
      saveHands db hands = Except.ok db2 →
      (db2.map (fun r => r.hand_id)).Nodup)
    ∧ (∀ (db db2 : List DatabaseInsertHand) (hands : List ParsedHand),
      parseHandLogFile db hands = Except.ok db2 →
      parseHandLogFile db2 hands = Except.ok db2 ∧
      hands.filter (fun h2 => (getPokerHandById db2 h2.handId).isNone) = []) := by
  refine ⟨?_, ?_, ?_, ?_⟩
  · intro db hand hv hd
    unfold saveHandToDatabase
    rw [hv, hd]
    rfl
  · intro db row hd
    have hins : insertPokerHand db row = Except.error DbError.uniqueConstraintFailed := by
      unfold insertPokerHand
      rw [hd]
      rfl
    refine ⟨hins, ?_⟩
    unfold insertWithConstraintCatch
    rw [hins]
    rfl
  · intro db db2 hands hnd h
    exact saveHands_nodup hands h hnd
  · intro db db2 hands h
    obtain ⟨hfil, hrun⟩ := parseHandLogFile_idempotent h
    exact ⟨hrun, hfil⟩

/-- C8 witness: ingesting one concrete finalized hand into an empty store
and then ingesting it again leaves the one-row store unchanged with the
hand reported as already present. -/
theorem c8_idempotent_persistence_witness :
    parseHandLogFile [] [c8Record] = Except.ok [toDbHand c8Record] ∧
    (parseHandLogFile [toDbHand c8Record] [c8Record] = Except.ok [toDbHand c8Record] ∧
      [c8Record].filter
        (fun h2 => (getPokerHandById [toDbHand c8Record] h2.handId).isNone) = []) := by
  have h : parseHandLogFile [] [c8Record] = Except.ok [toDbHand c8Record] := by
    with_unfolding_all rfl
  exact ⟨h, c8_idempotent_persistence.2.2.2 [] [toDbHand c8Record] [c8Record] h⟩

end N8PokerTool
